import Mathlib

/-!
# Verification of the kas-free resilient request layer

Shallow embedding of the core algorithms of the repository:

* `AdaptiveTimeoutManager.calculateTimeout` (statistics-based adaptive timeout),
* `ApiClient.calculateDelay` / `ApiClient.fetchWithRetry` (exponential backoff retry),
* `AdvancedCacheManager.smartCleanup` (LFU + recency hybrid eviction),
* `ErrorRecoveryManager.handleError` / `getHealthStatus` (strategy-based recovery),
* the two-stage classification pipeline `analyzeImage` / `determineStatus` /
  `buildFinalResult`.

JavaScript numbers are modelled by exact arithmetic: `ℚ` for scores, delays and
latency samples, `ℝ` where `Math.sqrt` is involved, `ℤ`/`ℕ` for counters and
timestamps.  Fallible or effectful collaborators (the fetch transport, the
recovery strategies, the deep-analysis backend) are modelled as explicit
outcome parameters, so each function is a pure function of its inputs and the
outcomes of its collaborators.
-/

/-! ## AdaptiveTimeoutManager (src/src/background/AdaptiveTimeoutManager.js)

The constructor stores `minTimeout` (default 3000), `maxTimeout` (default
30000) and `defaultTimeout` (default 15000).  `calculateTimeout` returns the
default when fewer than 5 samples are recorded and otherwise
`Math.round(Math.max(min, Math.min(mean + 2*stdDev, max)))` where `mean` and
the population variance are computed by `reduce` folds over the history. -/

/-- The three timeout options of `AdaptiveTimeoutManager`'s constructor
(`historySize` plays no role in `calculateTimeout`). -/
structure AdaptiveTimeoutOptions where
  minTimeout : ℤ
  maxTimeout : ℤ
  defaultTimeout : ℤ
  deriving Repr, DecidableEq

/-- Constructor defaults: `minTimeout 3000`, `maxTimeout 30000`,
`defaultTimeout 15000`. -/
def defaultAdaptiveOptions : AdaptiveTimeoutOptions :=
  { minTimeout := 3000, maxTimeout := 30000, defaultTimeout := 15000 }

/-- `times.reduce((sum, t) => sum + t, 0) / times.length` — the sample mean
computed by `calculateTimeout`. -/
def jsMean (times : List ℚ) : ℚ :=
  times.foldl (fun sum t => sum + t) 0 / times.length

/-- `times.reduce((sum, t) => sum + Math.pow(t - mean, 2), 0) / times.length`
— the population variance computed by `calculateTimeout`. -/
def jsVariance (times : List ℚ) : ℚ :=
  times.foldl (fun sum t => sum + (t - jsMean times) ^ 2) 0 / times.length

/-- `AdaptiveTimeoutManager.calculateTimeout`: with fewer than 5 samples the
configured default is returned; otherwise the mean-plus-two-standard-deviations
value is bounded by `Math.max(min, Math.min(·, max))` and rounded. -/
noncomputable def calculateTimeout (opts : AdaptiveTimeoutOptions)
    (times : List ℚ) : ℤ :=
  if times.length < 5 then
    opts.defaultTimeout
  else
    round (max (opts.minTimeout : ℝ)
      (min ((jsMean times : ℝ) + 2 * Real.sqrt ((jsVariance times : ℝ)))
        (opts.maxTimeout : ℝ)))

/-! Spec-side formulation of the ≥5-samples branch, following the spec's words:
"compute the sample mean μ and population standard deviation σ, then return
`clamp(μ + 2σ, minTimeout, maxTimeout)` (defaults: min 3000ms, max 30000ms),
rounded to the nearest millisecond". -/

/-- `clamp(x, lo, hi)` as used by the spec. -/
noncomputable def clamp (x lo hi : ℝ) : ℝ := max lo (min x hi)

/-- Sample mean of the spec: sum of the samples divided by their number. -/
def specMean (latencies : List ℚ) : ℚ := latencies.sum / latencies.length

/-- Population variance of the spec: mean of the squared deviations. -/
def specVariance (latencies : List ℚ) : ℚ :=
  (latencies.map (fun t => (t - specMean latencies) ^ 2)).sum / latencies.length

/-- Population standard deviation of the spec. -/
noncomputable def specStdDev (latencies : List ℚ) : ℝ :=
  Real.sqrt ((specVariance latencies : ℝ))

/-- Modelled from the spec: `timeoutFor(endpoint)` on a history of at least 5
samples, with the default bounds 3000/30000: `clamp(μ + 2σ, 3000, 30000)`
rounded to the nearest integer millisecond. -/
noncomputable def specTimeoutFor (latencies : List ℚ) : ℤ :=
  round (clamp ((specMean latencies : ℝ) + 2 * specStdDev latencies) 3000 30000)

/-! ### The worked example history -/

/-- The example history of the spec and of the source's doc comment. -/
def exampleLatencies : List ℚ := [3000, 3200, 2800, 3100, 3000]

/-! ## ApiClient (src/unnamed/part_003)

`calculateDelay(attempt)` returns
`Math.min(Math.pow(2, attempt) * baseDelay + jitter, 10000)` with
`jitter = Math.random() * 1000`.  `fetchWithRetry` loops
`attempt = 0 .. maxRetries`; a response with a retryable status
(`status >= 500 || status === 408 || status === 429`) is retried while
`attempt < maxRetries` and otherwise returned; a thrown retryable `ApiError`
or a `TypeError` is retried while `attempt < maxRetries` and otherwise
re-thrown; any other exception propagates immediately. -/

/-- `ApiClient.calculateDelay`, with the jitter made an explicit input:
`min(2^attempt * baseDelay + jitter, 10000)`. -/
def calculateDelay (baseDelay : ℚ) (attempt : ℕ) (jitter : ℚ) : ℚ :=
  min (2 ^ attempt * baseDelay + jitter) 10000

/-! ### fetchWithRetry -/

/-- Exceptions thrown by `fetchWithTimeout`: an `ApiError` with status code
and retryable flag (e.g. the 408 timeout error), a `TypeError` (network
failure from `fetch`), or any other error. -/
inductive JsFetchError where
  | apiError (statusCode : ℕ) (retryable : Bool)
  | typeError
  | otherError
  deriving Repr, DecidableEq

/-- One attempt's outcome from `fetchWithTimeout`: an HTTP response with a
status code, or a thrown exception. -/
inductive FetchOutcome where
  | resp (status : ℕ)
  | thrown (e : JsFetchError)
  deriving Repr, DecidableEq

/-- `ApiClient.isRetryableStatus`: `status >= 500 || status === 408 ||
status === 429`. -/
def isRetryableStatus (status : ℕ) : Bool :=
  500 ≤ status || status = 408 || status = 429

/-- Whether a thrown error takes a retry branch of `fetchWithRetry`'s catch:
a retryable `ApiError` (case 1) or a `TypeError` (case 2). -/
def isRetryableError : JsFetchError → Bool
  | .apiError _ retryable => retryable
  | .typeError => true
  | .otherError => false

/-- The loop body of `ApiClient.fetchWithRetry`, with the outcome of the
`attempt`-th call to `fetchWithTimeout` given by `outcomes`.  `remaining` is
`maxRetries - attempt`, so `remaining = 0` exactly on the final iteration. -/
def fetchWithRetryGo (outcomes : ℕ → FetchOutcome) (maxRetries : ℕ) :
    (attempt : ℕ) → (remaining : ℕ) → Except JsFetchError ℕ
  | attempt, 0 =>
      match outcomes attempt with
      | .resp status => .ok status
      | .thrown e => .error e
  | attempt, remaining + 1 =>
      match outcomes attempt with
      | .resp status =>
          if isRetryableStatus status then
            fetchWithRetryGo outcomes maxRetries (attempt + 1) remaining
          else
            .ok status
      | .thrown e =>
          if isRetryableError e then
            fetchWithRetryGo outcomes maxRetries (attempt + 1) remaining
          else
            .error e

/-- `ApiClient.fetchWithRetry`: run attempts `0 .. maxRetries`, returning the
response or propagating the final/terminal exception. -/
def fetchWithRetry (outcomes : ℕ → FetchOutcome) (maxRetries : ℕ) :
    Except JsFetchError ℕ :=
  fetchWithRetryGo outcomes maxRetries 0 maxRetries

/-! ## Classification pipeline (src/unnamed/part_002)

`analyzeImage` runs the hash check (stage 1); on success it classifies the
risk score with `determineStatus`.  A `safe` status returns immediately
without stage 2; `caution`/`danger` attempt the image-upload deep check
(stage 2) and, when it succeeds, the final result is built from the deep
result's score.  If the hash check throws, a zero-score safe fallback result
is returned.  The stage outcomes are modelled as `Option` parameters: `none`
means that stage threw (or, for stage 2, returned nothing). -/

/-- The traffic-light status returned by `determineStatus`. -/
inductive TrafficStatus where
  | safe
  | caution
  | danger
  deriving Repr, DecidableEq

/-- The `{safeMax, cautionMax}` entry of `currentSettings.thresholds`. -/
structure Thresholds where
  safeMax : ℚ
  cautionMax : ℚ
  deriving Repr, DecidableEq

/-- `determineStatus(riskScore)`: `safe` below `safeMax`, `caution` below
`cautionMax`, otherwise `danger`. -/
def determineStatus (th : Thresholds) (riskScore : ℚ) : TrafficStatus :=
  if riskScore < th.safeMax then .safe
  else if riskScore < th.cautionMax then .caution
  else .danger

/-- A stage result (hash check or deep analysis): risk score, per-category
scores and the producing source. -/
structure StageResult where
  riskScore : ℚ
  categories : List (String × ℚ)
  source : String
  deriving Repr, DecidableEq

/-- The all-zero category map of the hash-check-failed fallback. -/
def zeroCategories : List (String × ℚ) :=
  [("gore", 0), ("violence", 0), ("death", 0), ("disturbing", 0),
   ("insects", 0), ("medical", 0), ("shock", 0), ("animal_cruelty", 0),
   ("nsfw_porn", 0), ("nsfw_sexy", 0)]

/-- `safeFallbackResult` of `analyzeImage`: risk score 0, all ten category
scores 0, source `hash-check-failed`. -/
def safeFallbackResult : StageResult :=
  { riskScore := 0, categories := zeroCategories, source := "hash-check-failed" }

/-- The final result object assembled by `buildFinalResult`. -/
structure FinalResult where
  status : TrafficStatus
  riskScore : ℚ
  categories : List (String × ℚ)
  primary : Option StageResult
  secondary : Option StageResult
  source : String
  deriving Repr, DecidableEq

/-- `buildFinalResult(primary, secondary, status)`: `mainResult = secondary ||
primary`; score, categories and source are taken from `mainResult`. -/
def buildFinalResult (primary secondary : Option StageResult)
    (status : TrafficStatus) : FinalResult :=
  let mainResult := match secondary with
    | some s => some s
    | none => primary
  { status := status
    riskScore := match mainResult with
      | some m => m.riskScore
      | none => 0
    categories := match mainResult with
      | some m => m.categories
      | none => []
    primary := primary
    secondary := secondary
    source := match mainResult with
      | some m => m.source
      | none => "unknown" }

/-- `analyzeImage`, as a function of the outcomes of its two stages.
`primaryOutcome` is the result of the hash-check stage (`none`: it threw after
all retries); `deepOutcome` the result of the image-upload stage when
attempted (`none`: it threw or returned nothing).  The boolean records
whether the deep-analysis stage was escalated to. -/
def analyzeImage (th : Thresholds) (primaryOutcome deepOutcome : Option StageResult) :
    FinalResult × Bool :=
  match primaryOutcome with
  | some primaryResult =>
      match determineStatus th primaryResult.riskScore with
      | .safe => (buildFinalResult (some primaryResult) none .safe, false)
      | .caution =>
          match deepOutcome with
          | some secondaryResult =>
              (buildFinalResult (some primaryResult) (some secondaryResult)
                (determineStatus th secondaryResult.riskScore), true)
          | none => (buildFinalResult (some primaryResult) none .caution, true)
      | .danger =>
          match deepOutcome with
          | some secondaryResult =>
              (buildFinalResult (some primaryResult) (some secondaryResult)
                (determineStatus th secondaryResult.riskScore), true)
          | none => (buildFinalResult (some primaryResult) none .danger, true)
  | none => (buildFinalResult (some safeFallbackResult) none .safe, false)

/-! ## ErrorRecoveryManager (src/src/background/ErrorRecoveryManager.js)

`handleError` builds `errorKey = errorType + '_' + (context.postUrl ||
'global')`, increments `errorCounts[errorKey]`, records the error in the
history, and fails immediately once the count exceeds `maxRetries` (default
3).  Otherwise the registered strategy runs; if its action is `retry` or
`fallback` the counter for that key is deleted (reset), while `fail`,
`restart`, a strategy exception, or the no-strategy default-`retry` path all
leave the incremented counter in place.  We model a single
`(errorType, contextKey)` pair, so the state is that key's counter. -/

/-- The `action` field of a recovery result. -/
inductive RecoveryAction where
  | retry
  | fallback
  | fail
  | restart
  deriving Repr, DecidableEq

/-- The outcome of `handleError`: whether recovery succeeded and which action
was decided. -/
structure RecoveryOutcome where
  success : Bool
  action : RecoveryAction
  deriving Repr, DecidableEq

/-- What the environment does when the registered strategy for the error type
is consulted: the strategy resolves with an action, the strategy throws, or
no strategy is registered for the type (e.g. `RateLimitError`,
`UnknownError`). -/
inductive StrategyBehavior where
  | returns (action : RecoveryAction)
  | throws
  | missing
  deriving Repr, DecidableEq

/-- One call of `ErrorRecoveryManager.handleError` for a fixed
`(errorType, contextKey)` pair: `count` is the current value of
`errorCounts[errorKey]` (0 when absent); the returned `ℕ` is the counter
value after the call. -/
def handleErrorStep (maxRetries count : ℕ) (behavior : StrategyBehavior) :
    RecoveryOutcome × ℕ :=
  if maxRetries < count + 1 then
    ({ success := false, action := .fail }, count + 1)
  else
    match behavior with
    | .returns a =>
        if a = .retry ∨ a = .fallback then
          ({ success := decide (a ≠ .fail), action := a }, 0)
        else
          ({ success := decide (a ≠ .fail), action := a }, count + 1)
    | .throws => ({ success := false, action := .fail }, count + 1)
    | .missing => ({ success := false, action := .retry }, count + 1)

/-- A sequence of `handleError` calls for the same pair, returning the list
of outcomes and the final counter. -/
def runHandleErrors (maxRetries : ℕ) (count : ℕ) :
    List StrategyBehavior → List RecoveryOutcome × ℕ
  | [] => ([], count)
  | b :: bs =>
      let (outcome, count') := handleErrorStep maxRetries count b
      let (outcomes, countEnd) := runHandleErrors maxRetries count' bs
      (outcome :: outcomes, countEnd)

/-- Whether a call's behavior resets the counter: a registered strategy that
resolves with `retry` or `fallback`. -/
def resetsCounter : StrategyBehavior → Bool
  | .returns .retry => true
  | .returns .fallback => true
  | _ => false

/-! ### Error history and health status -/

/-- One entry of `errorHistory` as written by `recordError` (the `stack` and
`context` fields play no role in the health computation). -/
structure ErrorRecord where
  timestamp : ℤ
  errType : String
  message : String
  deriving Repr, DecidableEq

/-- `this.maxHistorySize = 100`. -/
def maxHistorySize : ℕ := 100

/-- `ErrorRecoveryManager.recordError`: push the record, then `shift()` the
oldest entry if the history exceeds `maxHistorySize`. -/
def recordError (history : List ErrorRecord) (r : ErrorRecord) :
    List ErrorRecord :=
  if maxHistorySize < (history ++ [r]).length then (history ++ [r]).tail
  else history ++ [r]

/-- The three health levels of `getHealthStatus`. -/
inductive HealthLevel where
  | healthy
  | degraded
  | critical
  deriving Repr, DecidableEq

/-- `recentErrorRate = this.errorHistory.slice(-10).length / 10`. -/
def recentErrorRate (history : List ErrorRecord) : ℚ :=
  ((history.drop (history.length - 10)).length : ℚ) / 10

/-- `ErrorRecoveryManager.getHealthStatus`: `healthy`, overridden to
`degraded` when the recent error rate exceeds 0.5 and to `critical` when it
exceeds 0.8. -/
def getHealthStatus (history : List ErrorRecord) : HealthLevel :=
  if 4/5 < recentErrorRate history then .critical
  else if 1/2 < recentErrorRate history then .degraded
  else .healthy

/-! ## AdvancedCacheManager.smartCleanup (src/unnamed/part_001)

The tracked state is the pair of maps `accessCount` / `lastAccess` (modelled
as a list of entries keyed by URL) plus the backing persistent store
(modelled as its list of keys).  `smartCleanup` scores every entry as
`count * 1000 + max(0, 86400000 - age)`, sorts ascending by score, keeps
`Math.max(10, Math.ceil(totalCount * 0.8))` entries and deletes the
lowest-scored rest from both the maps and the store. -/

/-- One tracked entry: a key of the `accessCount`/`lastAccess` maps. -/
structure CacheEntry where
  url : String
  count : ℕ
  lastTime : ℤ
  deriving Repr, DecidableEq

/-- The hybrid score: `frequencyScore + recencyScore` with
`frequencyScore = count * 1000` and
`recencyScore = Math.max(0, 86400000 - age)` for `age = now - lastTime`. -/
def entryScore (now : ℤ) (e : CacheEntry) : ℤ :=
  e.count * 1000 + max 0 (86400000 - (now - e.lastTime))

/-- The cache state: the in-memory maps and the keys of the persistent
store. -/
structure CacheState where
  entries : List CacheEntry
  store : List String
  deriving Repr, DecidableEq

/-- Deleting one URL: `deleteCachedResult(url)` on the store plus
`accessCount.delete(url)` / `lastAccess.delete(url)` on the maps. -/
def deleteEntry (st : CacheState) (url : String) : CacheState :=
  { entries := st.entries.filter (fun e => decide (e.url ≠ url)),
    store := st.store.filter (fun k => decide (k ≠ url)) }

/-- The ascending-score comparison of `entries.sort((a, b) => a.score -
b.score)`. -/
def scoreLE (now : ℤ) (a b : CacheEntry) : Bool :=
  decide (entryScore now a ≤ entryScore now b)

/-- `Math.max(10, Math.ceil(totalCount * 0.8))`, with the ceiling written in
natural-number division (`ceil_four_fifths` below proves the agreement). -/
def keepCount (total : ℕ) : ℕ := max 10 ((4 * total + 4) / 5)

/-- `toDelete = entries.slice(0, deleteCount)` after the ascending sort:
the `deleteCount = totalCount - keepCount` lowest-scored entries. -/
def toDelete (now : ℤ) (st : CacheState) : List CacheEntry :=
  (st.entries.mergeSort (scoreLE now)).take
    (st.entries.length - keepCount st.entries.length)

/-- `AdvancedCacheManager.smartCleanup`: no eviction when
`deleteCount = totalCount - keepCount <= 0`; otherwise the `deleteCount`
lowest-scored entries are deleted from the maps and the store.  Returns the
number of deleted entries and the new state. -/
def smartCleanup (now : ℤ) (st : CacheState) : ℕ × CacheState :=
  if st.entries.length ≤ keepCount st.entries.length then
    (0, st)
  else
    (st.entries.length - keepCount st.entries.length,
      (toDelete now st).foldl (fun s e => deleteEntry s e.url) st)

/-- Folding addition over a list equals the initial value plus the sum of the
mapped values. -/
theorem foldl_add_map_sum {α : Type} (f : α → ℚ) (l : List α) (x : ℚ) :
    l.foldl (fun sum t => sum + f t) x = x + (l.map f).sum := by
  induction l generalizing x with
  | nil => simp
  | cons a l ih => simp [ih, add_assoc]

/-- The `reduce`-style mean agrees with the spec's mean. -/
theorem jsMean_eq_specMean (times : List ℚ) : jsMean times = specMean times := by
  unfold jsMean specMean
  have h := foldl_add_map_sum (fun t => t) times 0
  simp only [List.map_id'] at h
  rw [h, zero_add]

/-- The `reduce`-style variance agrees with the spec's population variance. -/
theorem jsVariance_eq_specVariance (times : List ℚ) :
    jsVariance times = specVariance times := by
  unfold jsVariance specVariance
  rw [foldl_add_map_sum (fun t => (t - jsMean times) ^ 2) times 0, zero_add,
    jsMean_eq_specMean]

/-- **C3.** For every history of at least 5 samples, `calculateTimeout` with
the default configuration returns `clamp(mean(L) + 2*stddev(L), 3000, 30000)`
rounded to the nearest integer millisecond, where `stddev` is the population
standard deviation of `L`. -/
theorem calculateTimeout_eq_spec (latencies : List ℚ)
    (h : 5 ≤ latencies.length) :
    calculateTimeout defaultAdaptiveOptions latencies = specTimeoutFor latencies := by
  unfold calculateTimeout specTimeoutFor clamp specStdDev defaultAdaptiveOptions
  rw [if_neg (by omega)]
  rw [jsMean_eq_specMean, jsVariance_eq_specVariance]
  norm_num

/-- Witness for C3 at the concrete history `[3000, 3200, 2800, 3100, 3000]`. -/
theorem calculateTimeout_eq_spec_witness :
    calculateTimeout defaultAdaptiveOptions [3000, 3200, 2800, 3100, 3000] =
      specTimeoutFor [3000, 3200, 2800, 3100, 3000] :=
  calculateTimeout_eq_spec [3000, 3200, 2800, 3100, 3000] (by norm_num)

theorem jsMean_example : jsMean exampleLatencies = 3020 := by
  norm_num [jsMean, exampleLatencies, List.foldl_cons, List.foldl_nil]

theorem jsVariance_example : jsVariance exampleLatencies = 17600 := by
  rw [jsVariance, jsMean_example]
  norm_num [exampleLatencies, List.foldl_cons, List.foldl_nil]

theorem sqrt_17600_bounds :
    (132.25 : ℝ) ≤ Real.sqrt 17600 ∧ Real.sqrt 17600 < 132.75 :=
  ⟨(Real.le_sqrt' (by norm_num)).mpr (by norm_num),
   (Real.sqrt_lt' (by norm_num)).mpr (by norm_num)⟩

/-- Monotonicity of rounding to the nearest integer. -/
theorem round_mono_real {x y : ℝ} (h : x ≤ y) : round x ≤ round y := by
  rw [round_eq, round_eq]
  exact Int.floor_le_floor (by linarith)

/-- Evaluation of `calculateTimeout` on the example history: the mean is
`3020`, the population variance `17600`, so the result is
`round (3020 + 2 * √17600) = round 3285.33 = 3285`. -/
theorem calculateTimeout_example_eval :
    calculateTimeout defaultAdaptiveOptions exampleLatencies = 3285 := by
  unfold calculateTimeout
  rw [if_neg (by norm_num [exampleLatencies])]
  rw [jsMean_example, jsVariance_example]
  obtain ⟨hlb, hub⟩ := sqrt_17600_bounds
  have hcast : ((17600 : ℚ) : ℝ) = (17600 : ℝ) := by norm_num
  rw [hcast]
  have hmin : min ((((3020 : ℚ)) : ℝ) + 2 * Real.sqrt 17600)
      ((defaultAdaptiveOptions.maxTimeout : ℤ) : ℝ) =
      (((3020 : ℚ)) : ℝ) + 2 * Real.sqrt 17600 := by
    apply min_eq_left
    show (((3020 : ℚ)) : ℝ) + 2 * Real.sqrt 17600 ≤ ((30000 : ℤ) : ℝ)
    push_cast
    linarith
  rw [hmin]
  have hmax : max ((defaultAdaptiveOptions.minTimeout : ℤ) : ℝ)
      ((((3020 : ℚ)) : ℝ) + 2 * Real.sqrt 17600) =
      (((3020 : ℚ)) : ℝ) + 2 * Real.sqrt 17600 := by
    apply max_eq_right
    show ((3000 : ℤ) : ℝ) ≤ (((3020 : ℚ)) : ℝ) + 2 * Real.sqrt 17600
    push_cast
    linarith
  rw [hmax, round_eq]
  apply Int.floor_eq_iff.mpr
  constructor
  · push_cast
    linarith
  · push_cast
    linarith

/-- **C7 counterexample.** On the history `[3000, 3200, 2800, 3100, 3000]`
with the default configuration, `calculateTimeout` does not return 3289: the
population variance is 17600 (not 18000), σ ≈ 132.66 (not 134.4), and the
returned timeout is 3285. -/
theorem calculateTimeout_example_ne_3289 :
    calculateTimeout defaultAdaptiveOptions exampleLatencies ≠ 3289 := by
  rw [calculateTimeout_example_eval]
  decide

/-- **C7 (amended).** On the history `[3000, 3200, 2800, 3100, 3000]` with the
default configuration, `calculateTimeout` computes mean 3020 and population
variance 17600 (so σ ≈ 132.66), and returns 3285 ms (within the clamp
bounds). -/
theorem calculateTimeout_example_eq_3285 :
    jsMean exampleLatencies = 3020 ∧ jsVariance exampleLatencies = 17600 ∧
      calculateTimeout defaultAdaptiveOptions exampleLatencies = 3285 :=
  ⟨jsMean_example, jsVariance_example, calculateTimeout_example_eval⟩

/-! ### Boundedness of the adaptive timeout (C8) -/

/-- **C8 counterexample.** With options `{minTimeout: 20000, maxTimeout:
30000, defaultTimeout: 15000}` and an empty history, `calculateTimeout`
returns the unclamped default 15000, which lies below `minTimeout`. -/
theorem calculateTimeout_default_below_min :
    calculateTimeout
        { minTimeout := 20000, maxTimeout := 30000, defaultTimeout := 15000 }
        [] = 15000 ∧ (15000 : ℤ) < 20000 := by
  constructor
  · unfold calculateTimeout
    rw [if_pos (by norm_num)]
  · decide

/-- **C8 (amended).** Whenever the configured `defaultTimeout` itself lies in
`[minTimeout, maxTimeout]` — as the defaults 15000 ∈ [3000, 30000] do — the
value returned by `calculateTimeout` lies in `[minTimeout, maxTimeout]` for
every history, including the fewer-than-5-samples default path.  (The code
does not clamp the default, so the bound fails for configurations whose
default lies outside the clamp range.) -/
theorem calculateTimeout_bounded (opts : AdaptiveTimeoutOptions)
    (times : List ℚ)
    (h1 : opts.minTimeout ≤ opts.defaultTimeout)
    (h2 : opts.defaultTimeout ≤ opts.maxTimeout) :
    opts.minTimeout ≤ calculateTimeout opts times ∧
      calculateTimeout opts times ≤ opts.maxTimeout := by
  unfold calculateTimeout
  by_cases hlen : times.length < 5
  · rw [if_pos hlen]
    exact ⟨h1, h2⟩
  · rw [if_neg hlen]
    have hmM : (opts.minTimeout : ℝ) ≤ (opts.maxTimeout : ℝ) := by
      exact_mod_cast h1.trans h2
    set c : ℝ := ((jsMean times : ℚ) : ℝ) +
      2 * Real.sqrt ((jsVariance times : ℚ) : ℝ) with hc
    have hlow : (opts.minTimeout : ℝ) ≤
        max (opts.minTimeout : ℝ) (min c (opts.maxTimeout : ℝ)) :=
      le_max_left _ _
    have hhigh : max (opts.minTimeout : ℝ) (min c (opts.maxTimeout : ℝ)) ≤
        (opts.maxTimeout : ℝ) :=
      max_le hmM (min_le_right _ _)
    constructor
    · calc opts.minTimeout = round ((opts.minTimeout : ℤ) : ℝ) :=
            (round_intCast _).symm
        _ ≤ _ := round_mono_real hlow
    · calc round (max (opts.minTimeout : ℝ) (min c (opts.maxTimeout : ℝ)))
            ≤ round ((opts.maxTimeout : ℤ) : ℝ) := round_mono_real hhigh
        _ = opts.maxTimeout := round_intCast _

/-- Witness for the amended C8 at the default options and an empty history. -/
theorem calculateTimeout_bounded_witness :
    defaultAdaptiveOptions.minTimeout ≤ defaultAdaptiveOptions.defaultTimeout ∧
      defaultAdaptiveOptions.defaultTimeout ≤ defaultAdaptiveOptions.maxTimeout ∧
      (defaultAdaptiveOptions.minTimeout ≤
          calculateTimeout defaultAdaptiveOptions [] ∧
        calculateTimeout defaultAdaptiveOptions [] ≤
          defaultAdaptiveOptions.maxTimeout) :=
  ⟨by decide, by decide,
    calculateTimeout_bounded defaultAdaptiveOptions [] (by decide) (by decide)⟩

/-- **C6.** For jitter drawn from `[0, 1000)` the backoff delay is capped at
10000 ms, lies in `[2^i * baseDelay, 2^i * baseDelay + 1000)` whenever that
interval sits below the cap, and in particular with `baseDelay = 1000` attempt
0 yields a delay in `[1000, 2000)` and attempt 3 a delay in `[8000, 9000)`. -/
theorem calculateDelay_bounds (baseDelay jitter : ℚ) (attempt : ℕ)
    (h0 : 0 ≤ jitter) (h1 : jitter < 1000) :
    calculateDelay baseDelay attempt jitter ≤ 10000 ∧
      (2 ^ attempt * baseDelay + 1000 ≤ 10000 →
        2 ^ attempt * baseDelay ≤ calculateDelay baseDelay attempt jitter ∧
          calculateDelay baseDelay attempt jitter <
            2 ^ attempt * baseDelay + 1000) ∧
      (baseDelay = 1000 →
        (attempt = 0 →
          1000 ≤ calculateDelay baseDelay attempt jitter ∧
            calculateDelay baseDelay attempt jitter < 2000) ∧
        (attempt = 3 →
          8000 ≤ calculateDelay baseDelay attempt jitter ∧
            calculateDelay baseDelay attempt jitter < 9000)) := by
  unfold calculateDelay
  have hcap : min (2 ^ attempt * baseDelay + jitter) 10000 ≤ 10000 :=
    min_le_right _ _
  have hmain : 2 ^ attempt * baseDelay + 1000 ≤ 10000 →
      2 ^ attempt * baseDelay ≤ min (2 ^ attempt * baseDelay + jitter) 10000 ∧
        min (2 ^ attempt * baseDelay + jitter) 10000 <
          2 ^ attempt * baseDelay + 1000 := by
    intro hbelow
    constructor
    · apply le_min (by linarith) (by linarith)
    · exact lt_of_le_of_lt (min_le_left _ _) (by linarith)
  refine ⟨hcap, hmain, ?_⟩
  rintro rfl
  constructor
  · rintro rfl
    have h20 : (2 : ℚ) ^ (0 : ℕ) * 1000 = 1000 := by norm_num
    rw [h20]
    constructor
    · exact le_min (by linarith) (by norm_num)
    · exact lt_of_le_of_lt (min_le_left _ _) (by linarith)
  · rintro rfl
    have h23 : (2 : ℚ) ^ (3 : ℕ) * 1000 = 8000 := by norm_num
    rw [h23]
    constructor
    · exact le_min (by linarith) (by norm_num)
    · exact lt_of_le_of_lt (min_le_left _ _) (by linarith)

/-- Witness for C6 at `baseDelay = 1000`, `attempt = 3`, `jitter = 500`. -/
theorem calculateDelay_bounds_witness :
    (0 : ℚ) ≤ 500 ∧ (500 : ℚ) < 1000 ∧
      (calculateDelay 1000 3 500 ≤ 10000 ∧
        ((2 : ℚ) ^ 3 * 1000 + 1000 ≤ 10000 →
          2 ^ 3 * 1000 ≤ calculateDelay 1000 3 500 ∧
            calculateDelay 1000 3 500 < 2 ^ 3 * 1000 + 1000) ∧
        ((1000 : ℚ) = 1000 →
          ((3 : ℕ) = 0 →
            1000 ≤ calculateDelay 1000 3 500 ∧
              calculateDelay 1000 3 500 < 2000) ∧
          ((3 : ℕ) = 3 →
            8000 ≤ calculateDelay 1000 3 500 ∧
              calculateDelay 1000 3 500 < 9000))) :=
  ⟨by norm_num, by norm_num,
    calculateDelay_bounds 1000 500 3 (by norm_num) (by norm_num)⟩

/-- A response whose status is not retryable is returned as-is, with no
further attempts consumed. -/
theorem fetchWithRetryGo_resp_not_retryable (outcomes : ℕ → FetchOutcome)
    (m attempt remaining s : ℕ) (h : outcomes attempt = .resp s)
    (hs : isRetryableStatus s = false) :
    fetchWithRetryGo outcomes m attempt remaining = .ok s := by
  cases remaining with
  | zero => simp [fetchWithRetryGo, h]
  | succ r => simp [fetchWithRetryGo, h, hs]

/-- If every attempt in the window yields a retryable HTTP response, the loop
runs to the last attempt and returns that response. -/
theorem fetchWithRetryGo_all_retryable (outcomes : ℕ → FetchOutcome)
    (m : ℕ) (g : ℕ → ℕ) :
    ∀ (remaining attempt : ℕ),
      (∀ i, attempt ≤ i → i ≤ attempt + remaining →
        outcomes i = .resp (g i) ∧ isRetryableStatus (g i) = true) →
      fetchWithRetryGo outcomes m attempt remaining = .ok (g (attempt + remaining))
  | 0, attempt, h => by
      obtain ⟨h1, _⟩ := h attempt le_rfl (by omega)
      simp [fetchWithRetryGo, h1]
  | r + 1, attempt, h => by
      obtain ⟨h1, h2⟩ := h attempt le_rfl (by omega)
      have ih := fetchWithRetryGo_all_retryable outcomes m g r (attempt + 1)
        (fun i hi1 hi2 => h i (by omega) (by omega))
      have harith : attempt + (r + 1) = attempt + 1 + r := by omega
      rw [harith]
      simp [fetchWithRetryGo, h1, h2]
      exact ih

/-- The loop produces an exception only when some attempt's
`fetchWithTimeout` threw that exception. -/
theorem fetchWithRetryGo_error_of_thrown (outcomes : ℕ → FetchOutcome)
    (m : ℕ) :
    ∀ (remaining attempt : ℕ) (e : JsFetchError),
      fetchWithRetryGo outcomes m attempt remaining = .error e →
      ∃ i, attempt ≤ i ∧ i ≤ attempt + remaining ∧ outcomes i = .thrown e
  | 0, attempt, e => by
      intro h
      cases houtcome : outcomes attempt with
      | resp s => simp [fetchWithRetryGo, houtcome] at h
      | thrown e' =>
          simp [fetchWithRetryGo, houtcome] at h
          exact ⟨attempt, le_rfl, by omega, by rw [houtcome, h]⟩
  | r + 1, attempt, e => by
      intro h
      cases houtcome : outcomes attempt with
      | resp s =>
          by_cases hs : isRetryableStatus s = true
          · simp only [fetchWithRetryGo, houtcome, hs, if_true] at h
            obtain ⟨i, hi1, hi2, hi3⟩ :=
              fetchWithRetryGo_error_of_thrown outcomes m r (attempt + 1) e h
            exact ⟨i, by omega, by omega, hi3⟩
          · simp [fetchWithRetryGo, houtcome, hs] at h
      | thrown e' =>
          by_cases he : isRetryableError e' = true
          · simp only [fetchWithRetryGo, houtcome, he, if_true] at h
            obtain ⟨i, hi1, hi2, hi3⟩ :=
              fetchWithRetryGo_error_of_thrown outcomes m r (attempt + 1) e h
            exact ⟨i, by omega, by omega, hi3⟩
          · simp [fetchWithRetryGo, houtcome, he] at h
            exact ⟨attempt, le_rfl, by omega, by rw [houtcome, h]⟩

/-- **C9.** `fetchWithRetry` never throws because of an HTTP error status: a
first response with a non-retryable status is returned immediately; if every
attempt up to `maxRetries` yields a retryable status, the last HTTP response
itself is returned; and an exception is propagated only when some attempt's
underlying `fetchWithTimeout` threw it. -/
theorem fetchWithRetry_never_throws_on_status (maxRetries : ℕ)
    (outcomes : ℕ → FetchOutcome) :
    (∀ s, outcomes 0 = .resp s → isRetryableStatus s = false →
      fetchWithRetry outcomes maxRetries = .ok s) ∧
    (∀ g : ℕ → ℕ,
      (∀ i, i ≤ maxRetries →
        outcomes i = .resp (g i) ∧ isRetryableStatus (g i) = true) →
      fetchWithRetry outcomes maxRetries = .ok (g maxRetries)) ∧
    (∀ e, fetchWithRetry outcomes maxRetries = .error e →
      ∃ i, i ≤ maxRetries ∧ outcomes i = .thrown e) := by
  refine ⟨?_, ?_, ?_⟩
  · intro s h hs
    exact fetchWithRetryGo_resp_not_retryable outcomes maxRetries 0 maxRetries s h hs
  · intro g hg
    have := fetchWithRetryGo_all_retryable outcomes maxRetries g maxRetries 0
      (fun i hi1 hi2 => hg i (by omega))
    simpa [fetchWithRetry] using this
  · intro e h
    obtain ⟨i, _, hi2, hi3⟩ :=
      fetchWithRetryGo_error_of_thrown outcomes maxRetries maxRetries 0 e h
    exact ⟨i, by omega, hi3⟩

/-- Witness for C9 with `maxRetries = 3` and a backend that always answers
HTTP 503. -/
theorem fetchWithRetry_never_throws_on_status_witness :
    (∀ s, (fun _ : ℕ => FetchOutcome.resp 503) 0 = .resp s →
      isRetryableStatus s = false →
      fetchWithRetry (fun _ => .resp 503) 3 = .ok s) ∧
    (∀ g : ℕ → ℕ,
      (∀ i, i ≤ 3 →
        (fun _ : ℕ => FetchOutcome.resp 503) i = .resp (g i) ∧
          isRetryableStatus (g i) = true) →
      fetchWithRetry (fun _ => .resp 503) 3 = .ok (g 3)) ∧
    (∀ e, fetchWithRetry (fun _ => .resp 503) 3 = .error e →
      ∃ i, i ≤ 3 ∧ (fun _ : ℕ => FetchOutcome.resp 503) i = .thrown e) :=
  fetchWithRetry_never_throws_on_status 3 (fun _ => .resp 503)

/-- **C1.** When the hash-check stage succeeds: a fingerprint score below
`safeMax` short-circuits — the result is `safe` and the deep-analysis stage is
never invoked; a fingerprint score at or above `safeMax` escalates to deep
analysis, and when deep analysis succeeds the final result's risk score and
status come from the deep-analysis result. -/
theorem analyzeImage_two_stage (th : Thresholds) (p s : StageResult)
    (deepOutcome : Option StageResult) :
    (p.riskScore < th.safeMax →
      (analyzeImage th (some p) deepOutcome).1.status = .safe ∧
        (analyzeImage th (some p) deepOutcome).2 = false) ∧
    (th.safeMax ≤ p.riskScore →
      (analyzeImage th (some p) deepOutcome).2 = true ∧
        (analyzeImage th (some p) (some s)).1.riskScore = s.riskScore ∧
        (analyzeImage th (some p) (some s)).1.status =
          determineStatus th s.riskScore) := by
  constructor
  · intro h
    have hst : determineStatus th p.riskScore = .safe := by
      unfold determineStatus
      rw [if_pos h]
    constructor
    · simp [analyzeImage, hst, buildFinalResult]
    · simp [analyzeImage, hst]
  · intro h
    by_cases h2 : p.riskScore < th.cautionMax
    · have hst : determineStatus th p.riskScore = .caution := by
        unfold determineStatus
        rw [if_neg (not_lt.mpr h), if_pos h2]
      refine ⟨?_, ?_, ?_⟩
      · cases deepOutcome <;> simp [analyzeImage, hst]
      · simp [analyzeImage, hst, buildFinalResult]
      · simp [analyzeImage, hst, buildFinalResult]
    · have hst : determineStatus th p.riskScore = .danger := by
        unfold determineStatus
        rw [if_neg (not_lt.mpr h), if_neg h2]
      refine ⟨?_, ?_, ?_⟩
      · cases deepOutcome <;> simp [analyzeImage, hst]
      · simp [analyzeImage, hst, buildFinalResult]
      · simp [analyzeImage, hst, buildFinalResult]

/-- Witness for C1 at the spec's example numbers: fingerprint 0.15 against
thresholds `{safeMax: 0.3, cautionMax: 0.6}` short-circuits to `safe`;
fingerprint 0.45 escalates, and a deep-analysis score of 0.8 yields final
score 0.8 with status `danger`. -/
theorem analyzeImage_two_stage_witness :
    ((15/100 : ℚ) < 3/10 ∧
      (analyzeImage ⟨3/10, 6/10⟩ (some ⟨15/100, [], "hash"⟩) none).1.status =
        .safe ∧
      (analyzeImage ⟨3/10, 6/10⟩ (some ⟨15/100, [], "hash"⟩) none).2 = false) ∧
    ((3/10 : ℚ) ≤ 45/100 ∧
      (analyzeImage ⟨3/10, 6/10⟩ (some ⟨45/100, [], "hash"⟩)
        (some ⟨8/10, [], "image"⟩)).2 = true ∧
      (analyzeImage ⟨3/10, 6/10⟩ (some ⟨45/100, [], "hash"⟩)
        (some ⟨8/10, [], "image"⟩)).1.riskScore = 8/10 ∧
      (analyzeImage ⟨3/10, 6/10⟩ (some ⟨45/100, [], "hash"⟩)
        (some ⟨8/10, [], "image"⟩)).1.status = .danger) := by
  have h1 := (analyzeImage_two_stage ⟨3/10, 6/10⟩ ⟨15/100, [], "hash"⟩
    ⟨8/10, [], "image"⟩ none).1 (by norm_num)
  have h2 := (analyzeImage_two_stage ⟨3/10, 6/10⟩ ⟨45/100, [], "hash"⟩
    ⟨8/10, [], "image"⟩ (some ⟨8/10, [], "image"⟩)).2 (by norm_num)
  have hdanger : determineStatus ⟨3/10, 6/10⟩ ((8:ℚ)/10) = .danger := by
    unfold determineStatus
    norm_num
  refine ⟨⟨by norm_num, h1.1, h1.2⟩, by norm_num, h2.1, h2.2.1, ?_⟩
  rw [h2.2.2]
  exact hdanger

/-- **C2.** When the hash-check stage itself fails after all retries (it
throws), `analyzeImage` returns the safe fallback: status `safe`, risk score
0 and all category scores 0, and the deep-analysis stage is not invoked —
regardless of the thresholds and of what the deep stage would have
returned. -/
theorem analyzeImage_hash_failure_safe (th : Thresholds)
    (deepOutcome : Option StageResult) :
    (analyzeImage th none deepOutcome).1.status = .safe ∧
      (analyzeImage th none deepOutcome).1.riskScore = 0 ∧
      (analyzeImage th none deepOutcome).1.categories.all
        (fun c => decide (c.2 = 0)) = true ∧
      (analyzeImage th none deepOutcome).2 = false := by
  refine ⟨rfl, rfl, ?_, rfl⟩
  show (buildFinalResult (some safeFallbackResult) none .safe).categories.all
    (fun c => decide (c.2 = 0)) = true
  decide

/-- **C4 counterexample.** Four consecutive `handleError` calls for the same
`(NetworkError, contextKey)` pair with the default `maxRetries = 3`: the
network strategy resolves with `retry` each time, which resets the counter,
so the 4th call again returns `{action: retry}` — not `{action: fail}`. -/
theorem handleError_fourth_call_not_fail :
    ((runHandleErrors 3 0
        (List.replicate 4 (.returns .retry))).1.getLast? =
      some { success := true, action := .retry }) ∧
      RecoveryAction.retry ≠ RecoveryAction.fail := by
  constructor
  · rfl
  · decide

/-- Counter arithmetic: a call whose behavior does not reset the counter
leaves it incremented by one. -/
theorem handleErrorStep_no_reset (maxRetries count : ℕ)
    (b : StrategyBehavior) (hb : resetsCounter b = false) :
    (handleErrorStep maxRetries count b).2 = count + 1 := by
  unfold handleErrorStep
  split_ifs with h1
  · rfl
  · cases b with
    | returns a =>
        cases a with
        | retry => simp [resetsCounter] at hb
        | fallback => simp [resetsCounter] at hb
        | fail => simp
        | restart => simp
    | throws => rfl
    | missing => rfl

/-- After a run of non-resetting calls the counter equals its initial value
plus the number of calls. -/
theorem runHandleErrors_no_reset_count (maxRetries : ℕ) :
    ∀ (bs : List StrategyBehavior) (count : ℕ),
      (∀ b ∈ bs, resetsCounter b = false) →
      (runHandleErrors maxRetries count bs).2 = count + bs.length
  | [], count, _ => rfl
  | b :: bs, count, h => by
      have hb : resetsCounter b = false := h b (List.mem_cons_self b bs)
      have hrest := runHandleErrors_no_reset_count maxRetries bs
        ((handleErrorStep maxRetries count b).2)
        (fun x hx => h x (List.mem_cons_of_mem b hx))
      simp only [runHandleErrors]
      rw [handleErrorStep_no_reset maxRetries count b hb] at hrest ⊢
      simp only [hrest, List.length_cons]
      omega

/-- Once the counter has reached `maxRetries`, every further call fails
immediately (the counter is incremented before the check and never reset on
the fail path). -/
theorem runHandleErrors_fail_forever (maxRetries : ℕ) :
    ∀ (bs : List StrategyBehavior) (count : ℕ), maxRetries ≤ count →
      ∀ outcome ∈ (runHandleErrors maxRetries count bs).1,
        outcome = { success := false, action := .fail }
  | [], _, _, outcome, hmem => by simp [runHandleErrors] at hmem
  | b :: bs, count, hcount, outcome, hmem => by
      have hstep : handleErrorStep maxRetries count b =
          ({ success := false, action := .fail }, count + 1) := by
        unfold handleErrorStep
        rw [if_pos (by omega)]
      simp only [runHandleErrors, hstep] at hmem
      rcases List.mem_cons.mp hmem with h | h
      · exact h
      · exact runHandleErrors_fail_forever maxRetries bs (count + 1)
          (by omega) outcome h

/-- **C4 (amended).** For a fixed `(errorType, contextKey)` pair with the
default `maxRetries = 3`: provided none of the calls so far reset the counter
(no consulted strategy resolved with `retry` or `fallback` — e.g. the
strategy failed or threw each time, or the error type has no registered
strategy), after 3 such calls every later call deterministically returns
`{action: fail}`.  Without that proviso the claim is false: a strategy that
resolves with `retry`/`fallback` resets the counter, so the 4th call need not
fail. -/
theorem handleError_fail_after_three_without_reset
    (bs cs : List StrategyBehavior)
    (hnoreset : ∀ b ∈ bs, resetsCounter b = false)
    (hlen : 3 ≤ bs.length) :
    ∀ outcome ∈ (runHandleErrors 3 ((runHandleErrors 3 0 bs).2) cs).1,
      outcome = { success := false, action := .fail } := by
  have hcount : (runHandleErrors 3 0 bs).2 = bs.length := by
    rw [runHandleErrors_no_reset_count 3 bs 0 hnoreset]
    omega
  exact fun outcome hmem => runHandleErrors_fail_forever 3 cs
    ((runHandleErrors 3 0 bs).2) (by omega) outcome hmem

/-- Witness for the amended C4: three calls whose strategy throws (never
resetting the counter), after which a 4th and a 5th call — even ones whose
strategy would resolve with `retry` — both return `{action: fail}`. -/
theorem handleError_fail_after_three_without_reset_witness :
    (∀ b ∈ [StrategyBehavior.throws, .throws, .throws],
      resetsCounter b = false) ∧
      3 ≤ [StrategyBehavior.throws, .throws, .throws].length ∧
      ∀ outcome ∈ (runHandleErrors 3
          ((runHandleErrors 3 0 [StrategyBehavior.throws, .throws, .throws]).2)
          [StrategyBehavior.returns .retry, .missing]).1,
        outcome = { success := false, action := .fail } :=
  ⟨by decide, by decide,
    handleError_fail_after_three_without_reset
      [StrategyBehavior.throws, .throws, .throws]
      [StrategyBehavior.returns .retry, .missing] (by decide) (by decide)⟩

/-- `recordError` never shrinks the history. -/
theorem recordError_length_ge (history : List ErrorRecord) (r : ErrorRecord) :
    history.length ≤ (recordError history r).length := by
  unfold recordError
  split_ifs with h
  · rw [List.length_tail, List.length_append]
    simp
  · rw [List.length_append]
    simp

/-- `slice(-10).length` is `min length 10`. -/
theorem recent_length_eq (history : List ErrorRecord) :
    (history.drop (history.length - 10)).length = min history.length 10 := by
  rw [List.length_drop]
  omega

/-- The health status is a function of the history length alone: `critical`
from 9 recorded errors, `degraded` from 6, `healthy` below. -/
theorem getHealthStatus_eval (history : List ErrorRecord) :
    getHealthStatus history =
      (if 9 ≤ history.length then HealthLevel.critical
       else if 6 ≤ history.length then .degraded else .healthy) := by
  have hrate : recentErrorRate history =
      ((min history.length 10 : ℕ) : ℚ) / 10 := by
    rw [recentErrorRate, recent_length_eq]
  have hcrit : ((4 : ℚ)/5 < recentErrorRate history) ↔ 9 ≤ history.length := by
    rw [hrate, div_lt_div_iff₀ (by norm_num) (by norm_num)]
    have hcast : ((4 : ℚ) * 10 < ((min history.length 10 : ℕ) : ℚ) * 5) ↔
        (40 < (min history.length 10) * 5) := by
      norm_cast
    rw [hcast]
    omega
  have hdeg : ((1 : ℚ)/2 < recentErrorRate history) ↔ 6 ≤ history.length := by
    rw [hrate, div_lt_div_iff₀ (by norm_num) (by norm_num)]
    have hcast : ((1 : ℚ) * 10 < ((min history.length 10 : ℕ) : ℚ) * 2) ↔
        (10 < (min history.length 10) * 2) := by
      norm_cast
    rw [hcast]
    omega
  unfold getHealthStatus
  by_cases h9 : 9 ≤ history.length
  · rw [if_pos (hcrit.mpr h9), if_pos h9]
  · rw [if_neg (fun hc => h9 (hcrit.mp hc)), if_neg h9]
    by_cases h6 : 6 ≤ history.length
    · rw [if_pos (hdeg.mpr h6), if_pos h6]
    · rw [if_neg (fun hd => h6 (hdeg.mp hd)), if_neg h6]

/-- **C10.** `getHealthStatus` depends only on the number of recorded errors
(the recent rate is `min(totalErrors, 10) / 10`): `healthy` iff at most 5
errors were ever recorded, `degraded` iff 6 to 8, `critical` iff 9 or more;
the history length never decreases under `recordError`, so once 9 errors have
been handled the status stays `critical` forever. -/
theorem getHealthStatus_by_error_count (history : List ErrorRecord) :
    recentErrorRate history = ((min history.length 10 : ℕ) : ℚ) / 10 ∧
      (getHealthStatus history = .healthy ↔ history.length ≤ 5) ∧
      (getHealthStatus history = .degraded ↔
        6 ≤ history.length ∧ history.length ≤ 8) ∧
      (getHealthStatus history = .critical ↔ 9 ≤ history.length) ∧
      (∀ r, history.length ≤ (recordError history r).length) ∧
      (∀ r, 9 ≤ history.length →
        getHealthStatus (recordError history r) = .critical) := by
  refine ⟨by rw [recentErrorRate, recent_length_eq], ?_, ?_, ?_,
    fun r => recordError_length_ge history r, ?_⟩
  · rw [getHealthStatus_eval]
    split_ifs with h9 h6 <;> simp <;> omega
  · rw [getHealthStatus_eval]
    split_ifs with h9 h6 <;> simp <;> omega
  · rw [getHealthStatus_eval]
    split_ifs with h9 h6 <;> simp <;> omega
  · intro r h9
    rw [getHealthStatus_eval]
    have := recordError_length_ge history r
    rw [if_pos (by omega)]

/-- Witness for C10 at a history of 9 identical timeout errors. -/
theorem getHealthStatus_by_error_count_witness :
    recentErrorRate (List.replicate 9 ⟨0, "TimeoutError", "timeout"⟩) =
        ((min (List.replicate 9
          (⟨0, "TimeoutError", "timeout"⟩ : ErrorRecord)).length 10 : ℕ) : ℚ) / 10 ∧
      (getHealthStatus (List.replicate 9 ⟨0, "TimeoutError", "timeout"⟩) = .healthy ↔
        (List.replicate 9 (⟨0, "TimeoutError", "timeout"⟩ : ErrorRecord)).length ≤ 5) ∧
      (getHealthStatus (List.replicate 9 ⟨0, "TimeoutError", "timeout"⟩) = .degraded ↔
        6 ≤ (List.replicate 9 (⟨0, "TimeoutError", "timeout"⟩ : ErrorRecord)).length ∧
          (List.replicate 9 (⟨0, "TimeoutError", "timeout"⟩ : ErrorRecord)).length ≤ 8) ∧
      (getHealthStatus (List.replicate 9 ⟨0, "TimeoutError", "timeout"⟩) = .critical ↔
        9 ≤ (List.replicate 9 (⟨0, "TimeoutError", "timeout"⟩ : ErrorRecord)).length) ∧
      (∀ r, (List.replicate 9 (⟨0, "TimeoutError", "timeout"⟩ : ErrorRecord)).length ≤
        (recordError (List.replicate 9 ⟨0, "TimeoutError", "timeout"⟩) r).length) ∧
      (∀ r, 9 ≤ (List.replicate 9 (⟨0, "TimeoutError", "timeout"⟩ : ErrorRecord)).length →
        getHealthStatus (recordError (List.replicate 9 ⟨0, "TimeoutError", "timeout"⟩) r) =
          .critical) :=
  getHealthStatus_by_error_count (List.replicate 9 ⟨0, "TimeoutError", "timeout"⟩)

/-- `(4n + 4) / 5` in natural-number division is `Math.ceil(n * 0.8)`. -/
theorem ceil_four_fifths (n : ℕ) :
    Nat.ceil ((4 * n : ℚ) / 5) = (4 * n + 4) / 5 := by
  rcases Nat.eq_zero_or_pos ((4 * n + 4) / 5) with h0 | hpos
  · have hn : n = 0 := by omega
    subst hn
    simp
  · have hdm := Nat.div_add_mod (4 * n + 4) 5
    have hmod := Nat.mod_lt (4 * n + 4) (show 0 < 5 by norm_num)
    rw [Nat.ceil_eq_iff (by omega)]
    constructor
    · rw [lt_div_iff₀ (by norm_num : (0 : ℚ) < 5)]
      have h1 : 5 * ((4 * n + 4) / 5) ≤ 4 * n + 4 := by omega
      have h1q : (5 : ℚ) * ((4 * n + 4) / 5 : ℕ) ≤ 4 * n + 4 := by
        exact_mod_cast h1
      push_cast [Nat.cast_sub (by omega : 1 ≤ (4 * n + 4) / 5)]
      linarith
    · rw [div_le_iff₀ (by norm_num : (0 : ℚ) < 5)]
      have h2 : 4 * n ≤ 5 * ((4 * n + 4) / 5) := by omega
      have h2q : (4 : ℚ) * n ≤ 5 * ((4 * n + 4) / 5 : ℕ) := by
        exact_mod_cast h2
      linarith

/-- Folding `deleteEntry` over a deletion list filters both the maps and the
store by membership of the deleted URLs. -/
theorem foldl_deleteEntry (toDelete : List CacheEntry) (st : CacheState) :
    toDelete.foldl (fun s e => deleteEntry s e.url) st =
      { entries := st.entries.filter
          (fun e => decide (e.url ∉ toDelete.map (fun x => x.url))),
        store := st.store.filter
          (fun k => decide (k ∉ toDelete.map (fun x => x.url))) } := by
  induction toDelete generalizing st with
  | nil =>
      cases st with
      | mk entries store => simp
  | cons e0 rest ih =>
      rw [List.foldl_cons, ih (deleteEntry st e0.url)]
      unfold deleteEntry
      simp only [List.filter_filter]
      congr 1
      · apply List.filter_congr
        intro a _
        by_cases h1 : a.url = e0.url <;>
          by_cases h2 : a.url ∈ rest.map (fun x => x.url) <;>
            simp [h1, h2]
      · apply List.filter_congr
        intro k _
        by_cases h1 : k = e0.url <;>
          by_cases h2 : k ∈ rest.map (fun x => x.url) <;>
            simp [h1, h2]

/-- Score comparison is transitive. -/
theorem scoreLE_trans (now : ℤ) :
    ∀ (a b c : CacheEntry), scoreLE now a b → scoreLE now b c →
      scoreLE now a c := by
  intro a b c hab hbc
  simp only [scoreLE, decide_eq_true_eq] at *
  exact le_trans hab hbc

/-- Score comparison is total. -/
theorem scoreLE_total (now : ℤ) :
    ∀ (a b : CacheEntry), scoreLE now a b || scoreLE now b a := by
  intro a b
  simp only [scoreLE, Bool.or_eq_true, decide_eq_true_eq]
  exact le_total _ _

/-- Evaluation of `smartCleanup` on the eviction path. -/
theorem smartCleanup_eval (now : ℤ) (st : CacheState)
    (h : keepCount st.entries.length < st.entries.length) :
    smartCleanup now st =
      (st.entries.length - keepCount st.entries.length,
        { entries := st.entries.filter
            (fun e => decide (e.url ∉ (toDelete now st).map (fun x => x.url))),
          store := st.store.filter
            (fun k => decide (k ∉ (toDelete now st).map (fun x => x.url))) }) := by
  unfold smartCleanup
  rw [if_neg (not_le.mpr h), foldl_deleteEntry]

/-- **C5.** For every tracked cache state whose URLs are distinct,
`smartCleanup` retains exactly `min N (max 10 ⌈0.8N⌉)` entries (for `N ≥ 10`
this is the claim's `max(10, ceil(0.8N))`) and deletes the other
`N - min N (max 10 ⌈0.8N⌉)` entries — each with a score no higher than every
survivor's — removing them from the in-memory maps and from the persistent
store.  For `N = 100` exactly 80 survive and 20 are evicted; for `N = 5` no
eviction occurs and the state is untouched. -/
theorem smartCleanup_retention (now : ℤ) (st : CacheState)
    (hnodup : (st.entries.map (fun e => e.url)).Nodup) :
    keepCount st.entries.length =
      max 10 (Nat.ceil ((4 * st.entries.length : ℚ) / 5)) ∧
    (smartCleanup now st).2.entries.length =
      min st.entries.length (keepCount st.entries.length) ∧
    (smartCleanup now st).1 =
      st.entries.length - min st.entries.length (keepCount st.entries.length) ∧
    (st.entries.length = 100 →
      (smartCleanup now st).2.entries.length = 80 ∧
        (smartCleanup now st).1 = 20) ∧
    (st.entries.length = 5 →
      (smartCleanup now st).1 = 0 ∧ (smartCleanup now st).2 = st) ∧
    (∀ e ∈ st.entries, e ∉ (smartCleanup now st).2.entries →
      (∀ e' ∈ (smartCleanup now st).2.entries,
        entryScore now e ≤ entryScore now e') ∧
      e.url ∉ (smartCleanup now st).2.entries.map (fun x => x.url) ∧
      e.url ∉ (smartCleanup now st).2.store) := by
  have hceil : keepCount st.entries.length =
      max 10 (Nat.ceil ((4 * st.entries.length : ℚ) / 5)) := by
    rw [ceil_four_fifths]
    rfl
  by_cases hle : st.entries.length ≤ keepCount st.entries.length
  · have heq : smartCleanup now st = (0, st) := by
      unfold smartCleanup
      rw [if_pos hle]
    refine ⟨hceil, ?_, ?_, ?_, ?_, ?_⟩
    · rw [heq, min_eq_left hle]
    · rw [heq, min_eq_left hle]
      omega
    · intro h100
      have hk : keepCount 100 = 80 := by decide
      rw [h100, hk] at hle
      omega
    · intro _
      rw [heq]
      exact ⟨rfl, rfl⟩
    · intro e he hnot
      rw [heq] at hnot
      exact absurd he hnot
  · have h : keepCount st.entries.length < st.entries.length := not_le.mp hle
    have heval := smartCleanup_eval now st h
    have hperm : List.Perm (st.entries.mergeSort (scoreLE now)) st.entries :=
      List.mergeSort_perm st.entries (scoreLE now)
    have hlen_sorted : (st.entries.mergeSort (scoreLE now)).length =
        st.entries.length := hperm.length_eq
    have hsplit : toDelete now st ++
        (st.entries.mergeSort (scoreLE now)).drop
          (st.entries.length - keepCount st.entries.length) =
        st.entries.mergeSort (scoreLE now) :=
      List.take_append_drop _ _
    have hnodup_sorted :
        ((st.entries.mergeSort (scoreLE now)).map (fun e => e.url)).Nodup :=
      ((hperm.map (fun e => e.url)).nodup_iff).mpr hnodup
    have hnodup_append :
        ((toDelete now st).map (fun e => e.url) ++
          ((st.entries.mergeSort (scoreLE now)).drop
            (st.entries.length - keepCount st.entries.length)).map
            (fun e => e.url)).Nodup := by
      rw [← List.map_append, hsplit]
      exact hnodup_sorted
    have hdisj : ((toDelete now st).map (fun e => e.url)).Disjoint
        (((st.entries.mergeSort (scoreLE now)).drop
          (st.entries.length - keepCount st.entries.length)).map
          (fun e => e.url)) :=
      (List.nodup_append.mp hnodup_append).2.2
    have hfilterD : (toDelete now st).filter
        (fun e => decide (e.url ∉ (toDelete now st).map (fun x => x.url))) =
        [] := by
      rw [List.filter_eq_nil_iff]
      intro a ha
      simp only [decide_eq_true_eq, not_not]
      exact List.mem_map_of_mem _ ha
    have hfilterK : ((st.entries.mergeSort (scoreLE now)).drop
        (st.entries.length - keepCount st.entries.length)).filter
        (fun e => decide (e.url ∉ (toDelete now st).map (fun x => x.url))) =
        (st.entries.mergeSort (scoreLE now)).drop
          (st.entries.length - keepCount st.entries.length) := by
      rw [List.filter_eq_self]
      intro a ha
      simp only [decide_eq_true_eq]
      intro hmem
      exact hdisj hmem (List.mem_map_of_mem _ ha)
    have hfilter_sorted : (st.entries.mergeSort (scoreLE now)).filter
        (fun e => decide (e.url ∉ (toDelete now st).map (fun x => x.url))) =
        (st.entries.mergeSort (scoreLE now)).drop
          (st.entries.length - keepCount st.entries.length) := by
      rw [← hsplit, List.filter_append, hfilterD, hfilterK, List.nil_append,
        List.drop_append_of_le_length (by simp [toDelete])]
      simp [toDelete]
    have hfiltered_len : (st.entries.filter
        (fun e => decide (e.url ∉ (toDelete now st).map (fun x => x.url)))).length =
        keepCount st.entries.length := by
      have hp : List.Perm (st.entries.filter
          (fun e => decide (e.url ∉ (toDelete now st).map (fun x => x.url))))
          ((st.entries.mergeSort (scoreLE now)).filter
            (fun e => decide (e.url ∉ (toDelete now st).map (fun x => x.url)))) :=
        (hperm.filter _).symm
      rw [hp.length_eq, hfilter_sorted, List.length_drop, hlen_sorted]
      omega
    have hc2 : (smartCleanup now st).2.entries.length =
        keepCount st.entries.length := by
      rw [heval]
      exact hfiltered_len
    have hc1 : (smartCleanup now st).1 =
        st.entries.length - keepCount st.entries.length := by
      rw [heval]
    refine ⟨hceil, ?_, ?_, ?_, ?_, ?_⟩
    · rw [hc2, min_eq_right (le_of_lt h)]
    · rw [hc1, min_eq_right (le_of_lt h)]
    · intro h100
      constructor
      · rw [hc2, h100]
        decide
      · rw [hc1, h100]
        decide
    · intro h5
      have hk : keepCount 5 = 10 := by decide
      rw [h5, hk] at h
      omega
    · intro e he hnot
      rw [heval] at hnot
      have hpair := List.sorted_mergeSort (scoreLE_trans now)
        (scoreLE_total now) st.entries
      have hcross := (List.pairwise_append.mp
        (by rw [hsplit]; exact hpair :
          ((toDelete now st) ++
            ((st.entries.mergeSort (scoreLE now)).drop
              (st.entries.length - keepCount st.entries.length))).Pairwise
            (fun a b => scoreLE now a b))).2.2
      have hpe : ¬ (e.url ∉ (toDelete now st).map (fun x => x.url)) := by
        intro hnotin
        exact hnot (List.mem_filter.mpr ⟨he, by simpa using hnotin⟩)
      have heurl : e.url ∈ (toDelete now st).map (fun x => x.url) :=
        not_not.mp hpe
      obtain ⟨x, hxD, hx_url⟩ := List.mem_map.mp heurl
      have hx_sorted : x ∈ st.entries.mergeSort (scoreLE now) := by
        rw [← hsplit]
        exact List.mem_append_left _ hxD
      have he_sorted : e ∈ st.entries.mergeSort (scoreLE now) :=
        hperm.symm.subset he
      have hex : x = e :=
        List.inj_on_of_nodup_map hnodup_sorted hx_sorted he_sorted hx_url
      have heD : e ∈ toDelete now st := hex ▸ hxD
      refine ⟨?_, ?_, ?_⟩
      · intro e' he'
        rw [heval] at he'
        have he'_mem := (List.mem_filter.mp he').1
        have hp' := (List.mem_filter.mp he').2
        have he'_url : e'.url ∉ (toDelete now st).map (fun x => x.url) := by
          simpa using hp'
        have he'_sorted : e' ∈ st.entries.mergeSort (scoreLE now) :=
          hperm.symm.subset he'_mem
        have he'K : e' ∈ (st.entries.mergeSort (scoreLE now)).drop
            (st.entries.length - keepCount st.entries.length) := by
          rcases List.mem_append.mp
            (by rw [hsplit]; exact he'_sorted :
              e' ∈ (toDelete now st) ++
                ((st.entries.mergeSort (scoreLE now)).drop
                  (st.entries.length - keepCount st.entries.length))) with
            hD' | hK'
          · exact absurd (List.mem_map_of_mem _ hD') he'_url
          · exact hK'
        have hle' := hcross e heD e' he'K
        simpa [scoreLE] using hle'
      · rw [heval]
        intro hmem
        obtain ⟨a, haf, ha_url⟩ := List.mem_map.mp hmem
        have hpa := (List.mem_filter.mp haf).2
        simp only [decide_eq_true_eq] at hpa
        exact hpa (ha_url ▸ heurl)
      · rw [heval]
        intro hmem
        have hq := (List.mem_filter.mp hmem).2
        simp only [decide_eq_true_eq] at hq
        exact hq heurl

/-- Witness for C5 at a concrete three-entry state. -/
theorem smartCleanup_retention_witness :
    (([⟨"a", 1, 0⟩, ⟨"b", 2, 0⟩, ⟨"c", 3, 0⟩] : List CacheEntry).map
      (fun e => e.url)).Nodup ∧
    (keepCount (CacheState.mk [⟨"a", 1, 0⟩, ⟨"b", 2, 0⟩, ⟨"c", 3, 0⟩]
        ["a", "b", "c"]).entries.length =
      max 10 (Nat.ceil ((4 * (CacheState.mk [⟨"a", 1, 0⟩, ⟨"b", 2, 0⟩, ⟨"c", 3, 0⟩]
        ["a", "b", "c"]).entries.length : ℚ) / 5)) ∧
    (smartCleanup 0 (CacheState.mk [⟨"a", 1, 0⟩, ⟨"b", 2, 0⟩, ⟨"c", 3, 0⟩]
        ["a", "b", "c"])).2.entries.length =
      min (CacheState.mk [⟨"a", 1, 0⟩, ⟨"b", 2, 0⟩, ⟨"c", 3, 0⟩]
        ["a", "b", "c"]).entries.length
        (keepCount (CacheState.mk [⟨"a", 1, 0⟩, ⟨"b", 2, 0⟩, ⟨"c", 3, 0⟩]
          ["a", "b", "c"]).entries.length) ∧
    (smartCleanup 0 (CacheState.mk [⟨"a", 1, 0⟩, ⟨"b", 2, 0⟩, ⟨"c", 3, 0⟩]
        ["a", "b", "c"])).1 =
      (CacheState.mk [⟨"a", 1, 0⟩, ⟨"b", 2, 0⟩, ⟨"c", 3, 0⟩]
        ["a", "b", "c"]).entries.length -
        min (CacheState.mk [⟨"a", 1, 0⟩, ⟨"b", 2, 0⟩, ⟨"c", 3, 0⟩]
          ["a", "b", "c"]).entries.length
          (keepCount (CacheState.mk [⟨"a", 1, 0⟩, ⟨"b", 2, 0⟩, ⟨"c", 3, 0⟩]
            ["a", "b", "c"]).entries.length) ∧
    ((CacheState.mk [⟨"a", 1, 0⟩, ⟨"b", 2, 0⟩, ⟨"c", 3, 0⟩]
        ["a", "b", "c"]).entries.length = 100 →
      (smartCleanup 0 (CacheState.mk [⟨"a", 1, 0⟩, ⟨"b", 2, 0⟩, ⟨"c", 3, 0⟩]
          ["a", "b", "c"])).2.entries.length = 80 ∧
        (smartCleanup 0 (CacheState.mk [⟨"a", 1, 0⟩, ⟨"b", 2, 0⟩, ⟨"c", 3, 0⟩]
          ["a", "b", "c"])).1 = 20) ∧
    ((CacheState.mk [⟨"a", 1, 0⟩, ⟨"b", 2, 0⟩, ⟨"c", 3, 0⟩]
        ["a", "b", "c"]).entries.length = 5 →
      (smartCleanup 0 (CacheState.mk [⟨"a", 1, 0⟩, ⟨"b", 2, 0⟩, ⟨"c", 3, 0⟩]
          ["a", "b", "c"])).1 = 0 ∧
        (smartCleanup 0 (CacheState.mk [⟨"a", 1, 0⟩, ⟨"b", 2, 0⟩, ⟨"c", 3, 0⟩]
          ["a", "b", "c"])).2 =
          CacheState.mk [⟨"a", 1, 0⟩, ⟨"b", 2, 0⟩, ⟨"c", 3, 0⟩]
            ["a", "b", "c"]) ∧
    (∀ e ∈ (CacheState.mk [⟨"a", 1, 0⟩, ⟨"b", 2, 0⟩, ⟨"c", 3, 0⟩]
        ["a", "b", "c"]).entries,
      e ∉ (smartCleanup 0 (CacheState.mk [⟨"a", 1, 0⟩, ⟨"b", 2, 0⟩, ⟨"c", 3, 0⟩]
          ["a", "b", "c"])).2.entries →
      (∀ e' ∈ (smartCleanup 0 (CacheState.mk [⟨"a", 1, 0⟩, ⟨"b", 2, 0⟩, ⟨"c", 3, 0⟩]
          ["a", "b", "c"])).2.entries,
        entryScore 0 e ≤ entryScore 0 e') ∧
      e.url ∉ (smartCleanup 0 (CacheState.mk [⟨"a", 1, 0⟩, ⟨"b", 2, 0⟩, ⟨"c", 3, 0⟩]
          ["a", "b", "c"])).2.entries.map (fun x => x.url) ∧
      e.url ∉ (smartCleanup 0 (CacheState.mk [⟨"a", 1, 0⟩, ⟨"b", 2, 0⟩, ⟨"c", 3, 0⟩]
          ["a", "b", "c"])).2.store)) :=
  ⟨by decide,
    smartCleanup_retention 0
      (CacheState.mk [⟨"a", 1, 0⟩, ⟨"b", 2, 0⟩, ⟨"c", 3, 0⟩] ["a", "b", "c"])
      (by decide)⟩
